import Mathlib

/-!
Shallow embedding of the XParser repository (an LWC arithmetic-expression
component) in Lean 4.

The sources embedded here are the class `XParser` with its tokenizer,
operation registry and `calculate` entry point, the classes `Value`,
`Operation`, `Tree` and `Node` (null-handling, `execute`, `validateValues`),
and `swapPeriodsAndCommas` from `utils.js`.

JavaScript runtime behaviour is made explicit:
  * `null` and `undefined` are constructors of `JSVal`;
  * a statement that raises at runtime (`TypeError` from calling or
    iterating `undefined` / a non-iterable object, the thrown
    `NullValueError`) is modelled with `Except JSError`;
  * numbers are modelled as rationals `ℚ`.
-/

/-- A JavaScript value as far as the embedded code needs one: `null`,
`undefined`, a number, or a string. -/
inductive JSVal where
  | null
  | undef
  | num (q : ℚ)
  | str (s : String)
  deriving DecidableEq, Repr

/-- The runtime failures the embedded code can raise: a `TypeError`
(calling or iterating something that is `undefined` or not iterable) and
the `NullValueError` thrown by `Node.validateValues`. -/
inductive JSError where
  | typeError
  | nullValueError
  deriving DecidableEq, Repr

/-- Static constant `Tree.DROP_NULL` from the source. -/
def Tree.DROP_NULL : String := "drop_null"

/-- Static constant `Tree.NULL_AS_ZERO` from the source. -/
def Tree.NULL_AS_ZERO : String := "null_as_zero"

/-- Static constant `Tree.THROW_ERROR_ON_NULL` from the source. -/
def Tree.THROW_ERROR_ON_NULL : String := "throw_error"

/-- Method `Node.validateValues(values)` from the source, with the node's
`this.nullHandlingMode` passed explicitly.  The loop body: when the element
is `null`, the `NULL_AS_ZERO` branch pushes `0`, the `DROP_NULL` branch
`continue`s, the `THROW_ERROR_ON_NULL` branch throws `NullValueError`, and
the final `else` logs a warning and pushes `0`; afterwards control falls
through to the unconditional `validatedValues.push(value)` at the bottom of
the loop body (only `continue` and `throw` skip it), so the `null` element
itself is pushed right after the substituted `0`. -/
def validateValues (nullHandlingMode : String) : List JSVal → Except JSError (List JSVal)
  | [] => Except.ok []
  | value :: rest =>
    if value = JSVal.null then
      if nullHandlingMode = Tree.NULL_AS_ZERO then
        match validateValues nullHandlingMode rest with
        | Except.error e => Except.error e
        | Except.ok validatedRest => Except.ok (JSVal.num 0 :: value :: validatedRest)
      else if nullHandlingMode = Tree.DROP_NULL then
        validateValues nullHandlingMode rest
      else if nullHandlingMode = Tree.THROW_ERROR_ON_NULL then
        Except.error JSError.nullValueError
      else
        match validateValues nullHandlingMode rest with
        | Except.error e => Except.error e
        | Except.ok validatedRest => Except.ok (JSVal.num 0 :: value :: validatedRest)
    else
      match validateValues nullHandlingMode rest with
      | Except.error e => Except.error e
      | Except.ok validatedRest => Except.ok (value :: validatedRest)

/-- Semantics of `values.reduce(f)` on an array of numbers with no initial
value: a `TypeError` on an empty array, otherwise a left fold seeded with
the first element. -/
def jsReduce (f : ℚ → ℚ → ℚ) : List ℚ → Except JSError ℚ
  | [] => Except.error JSError.typeError
  | x :: xs => Except.ok (xs.foldl f x)

/-- The reducer lambda passed for `'+'` in `_initializeOperations`:
`values.reduce((total, value) => total + value)`. -/
def plusBody (values : List ℚ) : Except JSError JSVal :=
  (jsReduce (fun total value => total + value) values).map JSVal.num

/-- The reducer lambda passed for `'-'` in `_initializeOperations`:
`values.reduce((total, value) => total - value)`. -/
def minusBody (values : List ℚ) : Except JSError JSVal :=
  (jsReduce (fun total value => total - value) values).map JSVal.num

/-- The reducer lambda passed for `'*'` in `_initializeOperations`:
`values.reduce((product, factor) => product * factor)`. -/
def multiBody (values : List ℚ) : Except JSError JSVal :=
  (jsReduce (fun product factor => product * factor) values).map JSVal.num

/-- The reducer lambda passed for `'/'` in `_initializeOperations`: it is
written with `values.forEach(...)`, and `Array.prototype.forEach` discards
every value its callback returns and itself returns `undefined`, so this
lambda returns `undefined` for every operand list. -/
def diviBody (_values : List ℚ) : Except JSError JSVal :=
  Except.ok JSVal.undef

/-- The reducer lambda passed for `'%'` in `_initializeOperations`: it is
written with `values.forEeach(...)`; no such property exists on an array,
so the property access yields `undefined` and calling it raises
`TypeError` for every operand list. -/
def moduloBody (_values : List ℚ) : Except JSError JSVal :=
  Except.error JSError.typeError

/-- Class `Operation` from the source: a `name`, the `isFunction` flag,
and the own property `execute` set by the constructor.  The `execute`
field holds `none` when the property is `undefined`. -/
structure Operation where
  name : String
  isFunction : Bool
  execute : Option (List ℚ → Except JSError JSVal)

/-- The `Operation` constructor from the source.  Its body runs
`this.execute = this.executeFunction`; the reducer arrives in the
parameter `executeFunction`, but `this.executeFunction` is a property the
object does not have, i.e. `undefined`.  So the supplied reducer is
discarded and the instance's own `execute` property is `undefined`
(`none`), shadowing the prototype method. -/
def Operation.construct (name : String) (isFunction : Bool)
    (executeFunction : List ℚ → Except JSError JSVal) : Operation :=
  let _ := executeFunction
  { name := name, isFunction := isFunction, execute := none }

/-- Property assignment `obj[key] = v` on a plain JS object modelled as an
insertion-ordered association list: overwrite in place if the key exists,
append otherwise. -/
def objSet (obj : List (String × Operation)) (key : String) (v : Operation) :
    List (String × Operation) :=
  if obj.any (fun entry => entry.1 = key) then
    obj.map (fun entry => if entry.1 = key then (key, v) else entry)
  else
    obj ++ [(key, v)]

/-- Property read `obj[key]` on the modelled JS object: the stored
operation, or `none` for `undefined`. -/
def objGet (obj : List (String × Operation)) (key : String) : Option Operation :=
  (obj.find? (fun entry => entry.1 = key)).map Prod.snd

/-- Method `_initializeOperations` from the source, returning the
`this.operations` object it builds.  Note the last registration in the
source: `this.operations[MODULO] = new Operation(DIVI, false, ...)` — the
key is `'%'` but the `name` passed to the constructor is `DIVI`, `'/'`. -/
def _initializeOperations : List (String × Operation) :=
  let PLUS := "+"
  let operations := objSet [] PLUS (Operation.construct PLUS false plusBody)
  let MINUS := "-"
  let operations := objSet operations MINUS (Operation.construct MINUS false minusBody)
  let MULTI := "*"
  let operations := objSet operations MULTI (Operation.construct MULTI false multiBody)
  let DIVI := "/"
  let operations := objSet operations DIVI (Operation.construct DIVI false diviBody)
  let MODULO := "%"
  let operations := objSet operations MODULO (Operation.construct DIVI false moduloBody)
  operations

/-- The header of a `for...of` loop over a plain JavaScript object such as
`this.operations`.  Plain objects have no `Symbol.iterator`, so the loop
header itself raises `TypeError` before any iteration happens. -/
def jsForOfObject (_obj : List (String × Operation)) : Except JSError (List Operation) :=
  Except.error JSError.typeError

/-- Method `_isOperation(str)` from the source, with `this.operations`
passed explicitly: `for (let operation of this.operations)` followed by
`if (str === operation.name && operation.isFunction) return true`, then
`return false`.  The loop header iterates a plain object, so it raises;
the guard — which requires `isFunction` to be `true` — is kept as the
`any` predicate over the entries the loop would visit. -/
def _isOperation (operations : List (String × Operation)) (str : String) :
    Except JSError Bool := do
  let iterated ← jsForOfObject operations
  Except.ok (iterated.any (fun operation => str = operation.name && operation.isFunction))

/-- Method `_isNumber(str)` from the source: `/\d/.test(str)`, true when
the string contains a decimal digit. -/
def _isNumber (str : String) : Bool :=
  str.toList.any Char.isDigit

/-- Method `_isLetter(str)` from the source: `/[a-zA-z]/.test(str)`.  The
character class is literally `a-z` together with `A-z` (lowercase `z` in
the second range), so it covers every code point from `A` (65) to `z`
(122), including `[ \ ] ^ _` and the backquote. -/
def _isLetter (str : String) : Bool :=
  str.toList.any (fun c => ('a' ≤ c && c ≤ 'z') || ('A' ≤ c && c ≤ 'z'))

/-- Method `_isDecimalPoint(str)` from the source. -/
def _isDecimalPoint (str : String) : Bool :=
  str = "."

/-- Method `_isComma(str)` from the source. -/
def _isComma (str : String) : Bool :=
  str = ","

/-- Method `_isLeftParen(str)` from the source. -/
def _isLeftParen (str : String) : Bool :=
  str = "("

/-- Method `_isRightParen(str)` from the source.  No branch of
`tokenizeExpression` calls it: it is dead code there. -/
def _isRightParen (str : String) : Bool :=
  str = ")"

/-- The `for (let char of expression)` loop of `tokenizeExpression`, over
the remaining characters, carrying the loop state `tokens`,
`currentToken` and `previousChar`.  Branches in source order: digit
(flush on run boundary, then accumulate), letter (same), comma
(`continue`, which also skips the `previousChar = char` update at the
bottom of the loop body), decimal point (accumulate without flushing),
then `this._isOperation(char)` — whose call raises `TypeError`, see
`_isOperation` — then left parenthesis, and an `else` that only logs
`Unexpected character` and drops the character.  When the loop ends the
function returns `tokens`; a pending non-empty `currentToken` is not
flushed. -/
def tokenizeLoop (operations : List (String × Operation)) :
    List Char → List String → String → String → Except JSError (List String)
  | [], tokens, _currentToken, _previousChar => Except.ok tokens
  | char :: rest, tokens, currentToken, previousChar =>
    let c := char.toString
    if _isNumber c then
      if !_isNumber previousChar && !_isDecimalPoint previousChar && currentToken ≠ "" then
        tokenizeLoop operations rest (tokens ++ [currentToken]) c c
      else
        tokenizeLoop operations rest tokens (currentToken ++ c) c
    else if _isLetter c then
      if !_isLetter previousChar && currentToken ≠ "" then
        tokenizeLoop operations rest (tokens ++ [currentToken]) c c
      else
        tokenizeLoop operations rest tokens (currentToken ++ c) c
    else if _isComma c then
      tokenizeLoop operations rest tokens currentToken previousChar
    else if _isDecimalPoint c then
      tokenizeLoop operations rest tokens (currentToken ++ c) c
    else
      match _isOperation operations c with
      | Except.error e => Except.error e
      | Except.ok opMatch =>
        if opMatch then
          let flushed := if currentToken ≠ "" then tokens ++ [currentToken] else tokens
          tokenizeLoop operations rest (flushed ++ [c]) "" c
        else if _isLeftParen c then
          let flushed := if currentToken ≠ "" then tokens ++ [currentToken] else tokens
          tokenizeLoop operations rest (flushed ++ [c]) "" c
        else
          tokenizeLoop operations rest tokens currentToken c

/-- Method `tokenizeExpression(expression)` from the source, with
`this.operations` passed explicitly: runs the scan loop with empty
`tokens`, `currentToken` and `previousChar`. -/
def tokenizeExpression (operations : List (String × Operation)) (expression : String) :
    Except JSError (List String) :=
  tokenizeLoop operations expression.toList [] "" ""

/-- The loop of `swapPeriodsAndCommas` in `utils.js`: the local `result`
after folding over the characters, appending `.` for `,`, `,` for `.`,
and the character itself otherwise. -/
def swapLoop (str : String) : String :=
  str.toList.foldl
    (fun result char =>
      if char = ',' then result ++ "."
      else if char = '.' then result ++ ","
      else result ++ char.toString) ""

/-- Function `swapPeriodsAndCommas` from `utils.js`: the arrow function
builds the swapped string in the local variable `result` but has no
`return` statement, so it returns `undefined` (`none`) on every input. -/
def swapPeriodsAndCommas (str : String) : Option String :=
  let _result := swapLoop str
  none

/-- Method `_preprocessExpression(expression)` from the source, with
`this._internationalFormat` passed explicitly.  The guard
`if (!expression instanceof String)` parses as
`(!expression) instanceof String`, which is always `false`, so it never
throws.  When the international flag is set, `expression` is reassigned
to `swapPeriodsAndCommas(expression)` — which is `undefined` — and the
following `replaceAll` call on `undefined` raises `TypeError`.  The
chain `replaceAll(' ','').replaceAll('\t','').replaceAll('\n',)` omits
the final replacement argument, so `undefined` is coerced to the string
`"undefined"` wherever a newline occurs. -/
def _preprocessExpression (internationalFormat : Bool) (expression : String) :
    Except JSError String := do
  let expr ← if internationalFormat then
      match swapPeriodsAndCommas expression with
      | none => Except.error JSError.typeError
      | some swapped => Except.ok swapped
    else
      Except.ok expression
  Except.ok (((expr.replace " " "").replace "\t" "").replace "\n" "undefined")

/-- The methods the `XParser` class body declares, in source order.  Any
other property of an `XParser` instance looked up as a method is
`undefined`, and calling it raises `TypeError`. -/
def xparserMethodNames : List String :=
  ["connectedCallback", "tokenizeExpression", "_preprocessExpression", "calculate",
   "_initializeOperations", "_isNumber", "_isLetter", "_isDecimalPoint", "_isComma",
   "_isOperation", "_isLeftParen", "_isRightParen"]

/-- Method `calculate(expression, variableMap, callback, internationalFormat)`
from the source, with `this.operations` passed explicitly.  The body
stores `internationalFormat`, preprocesses the expression, stores
`expression`, `variableMap` and `callback` in fields (the callback is
only stored — nothing in the class ever invokes it), and ends with
`this.tokens = this._tokenizeExpression(this.expression)`.  The class
declares no `_tokenizeExpression` (its tokenizer is named
`tokenizeExpression`), so that property is `undefined` and the call
raises `TypeError`.  The method has no other statements: no parse step,
no evaluation step, no callback invocation. -/
def calculate (operations : List (String × Operation)) (expression : String)
    (variableMap : List (String × JSVal)) (internationalFormat : Bool) :
    Except JSError (List String) := do
  let _ := variableMap
  let preprocessed ← _preprocessExpression internationalFormat expression
  if xparserMethodNames.contains "_tokenizeExpression" then
    tokenizeExpression operations preprocessed
  else
    Except.error JSError.typeError

/-- Class `Value` from the source: a payload `value` (a literal number or
a variable name) and the `isVariable` flag. -/
structure Value where
  value : JSVal
  isVariable : Bool
  deriving DecidableEq, Repr

/-- The payload of a `Node`'s `item` field: an `instanceof Value` leaf
payload or an `instanceof Operation` internal payload. -/
inductive Item where
  | value (v : Value)
  | operation (op : Operation)

/-- The `item instanceof Value` test. -/
def Item.instValue : Item → Bool
  | Item.value _ => true
  | Item.operation _ => false

/-- The `item instanceof Operation` test. -/
def Item.instOperation : Item → Bool
  | Item.value _ => false
  | Item.operation _ => true

/-- Class `Node` from the source: an `item` and an ordered list of
`children`.  The `parent` back-reference is used only in diagnostic
strings and the `result` field is never assigned anywhere in the class,
so neither carries information. -/
inductive Node where
  | mk (item : Item) (children : List Node)

/-- Field access `node.item`. -/
def Node.item : Node → Item
  | Node.mk item _ => item

/-- Field access `node.children`. -/
def Node.children : Node → List Node
  | Node.mk _ children => children

/-- Method `Node._childrenAreAllValuesOrNoChildren()` from the source.
Despite its name, its first statement is
`if (this.children.length === 0) { return false; }`: a node with no
children yields `false`.  Otherwise it is `true` exactly when every
child's `item` is `instanceof Value`. -/
def _childrenAreAllValuesOrNoChildren (node : Node) : Bool :=
  if node.children.length = 0 then false
  else node.children.all (fun child => child.item.instValue)

/-- The loop of `Node._getValuesOfChildren()`: the local `values` array,
holding the `child.item` of every child whose item is
`instanceof Value` — the `Value` objects themselves, not their `value`
payloads. -/
def _getValuesOfChildrenLoop (node : Node) : List Value :=
  node.children.filterMap (fun child =>
    match child.item with
    | Item.value v => some v
    | Item.operation _ => none)

/-- Method `Node._getValuesOfChildren()` from the source: it builds the
local `values` array but has no `return` statement, so it returns
`undefined` (`none`) for every node. -/
def _getValuesOfChildren (node : Node) : Option (List Value) :=
  let _values := _getValuesOfChildrenLoop node
  none

/-- The common tail of both branches of `Node.execute()`:
`let values = this._getValuesOfChildren(); values = this.validateValues(values);
this.item.execute(values)`.  `_getValuesOfChildren` returns `undefined`,
and `validateValues(undefined)` runs `for (let value of undefined)`,
which raises `TypeError`.  (Were an array ever reached, the subsequent
`this.item.execute(...)` would itself raise: constructed `Operation`s
carry `execute = undefined`, see `Operation.construct`.) -/
def Node.executeTerminalStep (node : Node) : Except JSError Unit :=
  match _getValuesOfChildren node with
  | none => Except.error JSError.typeError
  | some _values => Except.error JSError.typeError

mutual

/-- Method `Node.execute()` from the source.  First branch: all children
are `Value`s (per `_childrenAreAllValuesOrNoChildren`) and the item is an
`Operation` — run the terminal step.  Else branch: recursively execute
every child, then re-test `_childrenAreAllValuesOrNoChildren()` alone and
run the terminal step if it holds.  The method returns no value and
never assigns `this.result`: on the paths that do not raise it produces
only `undefined`, modelled as `Unit`. -/
def Node.execute : Node → Except JSError Unit
  | Node.mk item children =>
    if _childrenAreAllValuesOrNoChildren (Node.mk item children) && Item.instOperation item then
      Node.executeTerminalStep (Node.mk item children)
    else do
      Node.executeList children
      if _childrenAreAllValuesOrNoChildren (Node.mk item children) then
        Node.executeTerminalStep (Node.mk item children)
      else
        Except.ok ()

/-- The `for (let child of this.children) { child.execute(); }` loop of
`Node.execute()`. -/
def Node.executeList : List Node → Except JSError Unit
  | [] => Except.ok ()
  | child :: rest => do
    Node.execute child
    Node.executeList rest

end

/-- A single-leaf tree: one `Node` with no children whose item is the
literal `Value` 5. -/
def singleLeafTree : Node :=
  Node.mk (Item.value { value := JSVal.num 5, isVariable := false }) []

/-- Complete characterisation of the failures of `validateValues`: it
yields `Except.error e` exactly when `e` is the `NullValueError`, the
mode is `THROW_ERROR_ON_NULL`, and some operand is `null`. -/
theorem validateValues_error_characterisation (nullHandlingMode : String)
    (values : List JSVal) :
    ∀ e : JSError, validateValues nullHandlingMode values = Except.error e ↔
      (e = JSError.nullValueError ∧ nullHandlingMode = Tree.THROW_ERROR_ON_NULL ∧
        JSVal.null ∈ values) := by
  induction values with
  | nil => intro e; simp [validateValues]
  | cons v rest ih =>
    intro e
    by_cases hv : v = JSVal.null
    · subst hv
      by_cases h1 : nullHandlingMode = Tree.NULL_AS_ZERO
      · subst h1
        cases hrec : validateValues Tree.NULL_AS_ZERO rest with
        | error e2 =>
          rcases (ih e2).mp hrec with ⟨_, hmode, _⟩
          exact absurd hmode (by decide)
        | ok out =>
          simp [validateValues, hrec,
            (by decide : ¬ Tree.NULL_AS_ZERO = Tree.THROW_ERROR_ON_NULL)]
      · by_cases h2 : nullHandlingMode = Tree.DROP_NULL
        · subst h2
          rw [show validateValues Tree.DROP_NULL (JSVal.null :: rest) =
              validateValues Tree.DROP_NULL rest from by
            simp [validateValues, (by decide : ¬ Tree.DROP_NULL = Tree.NULL_AS_ZERO)]]
          rw [ih e]
          simp [(by decide : ¬ Tree.DROP_NULL = Tree.THROW_ERROR_ON_NULL)]
        · by_cases h3 : nullHandlingMode = Tree.THROW_ERROR_ON_NULL
          · subst h3
            rw [show validateValues Tree.THROW_ERROR_ON_NULL (JSVal.null :: rest) =
                Except.error JSError.nullValueError from by
              simp [validateValues,
                (by decide : ¬ Tree.THROW_ERROR_ON_NULL = Tree.NULL_AS_ZERO),
                (by decide : ¬ Tree.THROW_ERROR_ON_NULL = Tree.DROP_NULL)]]
            simp [eq_comm]
          · cases hrec : validateValues nullHandlingMode rest with
            | error e2 =>
              rcases (ih e2).mp hrec with ⟨_, hmode, _⟩
              exact absurd hmode h3
            | ok out =>
              simp [validateValues, h1, h2, h3, hrec]
    · have hvmem : JSVal.null ∈ v :: rest ↔ JSVal.null ∈ rest := by
        simp [List.mem_cons]
        intro hnull
        exact absurd hnull.symm hv
      cases hrec : validateValues nullHandlingMode rest with
      | error e2 =>
        rcases (ih e2).mp hrec with ⟨he2, hmode, hmem⟩
        rw [show validateValues nullHandlingMode (v :: rest) = Except.error e2 from by
          simp [validateValues, hv, hrec]]
        subst he2
        simp [hvmem, hmode, hmem, eq_comm]
      | ok out =>
        rw [show validateValues nullHandlingMode (v :: rest) = Except.ok (v :: out) from by
          simp [validateValues, hv, hrec]]
        simp only [hvmem]
        constructor
        · intro h; cases h
        · rintro ⟨he, hmode, hmem⟩
          have : validateValues nullHandlingMode rest = Except.error JSError.nullValueError :=
            (ih JSError.nullValueError).mpr ⟨rfl, hmode, hmem⟩
          rw [hrec] at this
          cases this

/-- C1: the claim says `calculate` computes the precedence-respecting
arithmetic result of the expression and delivers it (or a typed failure)
to the supplied callback.  In the source, `calculate` only stores its
arguments and then calls `this._tokenizeExpression`, a method the class
does not define, so every call raises `TypeError`; no parsing, no
evaluation and no callback invocation exist, and in particular
`"2+3*4"` never produces 14.  This theorem evaluates `calculate` at the
three expressions the claim cites. -/
theorem calculate_crashes_with_typeError :
    calculate _initializeOperations "2+3*4" [] false = Except.error JSError.typeError ∧
    calculate _initializeOperations "(2+3)*4" [] false = Except.error JSError.typeError ∧
    calculate _initializeOperations "8-3-2" [] false = Except.error JSError.typeError :=
  ⟨rfl, rfl, rfl⟩

/-- C2: the claim says each built-in symbol `s` maps to an `Operation`
named `s` whose execute function reduces ≥2 operands left-to-right.  In
the source, the `'%'` entry is constructed with the name `DIVI` (`'/'`);
the constructor discards every supplied reducer (`execute` ends up
`undefined`, here `none`) — shown for `'+'` and `'-'`; the `'/'` reducer
body returns `undefined` for `[8, 4]` instead of 2 because it uses
`forEach`; and the `'%'` reducer body raises `TypeError` on `[8, 3]`
because it calls the nonexistent `forEeach`. -/
theorem initializeOperations_entries_broken :
    (objGet _initializeOperations "%").map Operation.name = some "/" ∧
    (objGet _initializeOperations "+").map (fun op => op.execute.isNone) = some true ∧
    (objGet _initializeOperations "-").map (fun op => op.execute.isNone) = some true ∧
    diviBody [8, 4] = Except.ok JSVal.undef ∧
    moduloBody [8, 3] = Except.error JSError.typeError :=
  ⟨rfl, rfl, rfl, rfl, rfl⟩

/-- C3: the claim says a right parenthesis is flushed and emitted as a
token in its own right, symmetrically with `'('`.  In the source,
`tokenizeExpression` has no right-parenthesis branch at all
(`_isRightParen` is never called); a `')'` reaches the
`this._isOperation(char)` test, which raises `TypeError` because it
iterates a plain object.  Tokenizing `")"` or `"(1)"` therefore crashes
instead of emitting a `')'` token. -/
theorem tokenize_rightParen_crashes :
    tokenizeExpression _initializeOperations ")" = Except.error JSError.typeError ∧
    tokenizeExpression _initializeOperations "(1)" = Except.error JSError.typeError :=
  ⟨rfl, rfl⟩

/-- C4: the claim says tokenization fails with `LexError` exactly on
unrecognized characters and never fails on recognized ones.  In the
source no `LexError` is ever raised: the branch that detects an
unexpected character only logs it to the console and drops it, and any
character reaching the `this._isOperation(char)` test — every registered
operator symbol, every parenthesis and every unrecognized character —
raises `TypeError` because the method iterates a plain object.  So the
recognized `"+"` crashes instead of tokenizing, the unrecognized `"#"`
raises `TypeError` rather than `LexError`, and only strings of digits,
letters, commas and periods return at all (shown for `"12,3a"`, which
also silently discards its trailing run). -/
theorem tokenize_no_lexError :
    tokenizeExpression _initializeOperations "+" = Except.error JSError.typeError ∧
    tokenizeExpression _initializeOperations "#" = Except.error JSError.typeError ∧
    tokenizeExpression _initializeOperations "12,3a" = Except.ok ["123"] :=
  ⟨rfl, rfl, rfl⟩

/-- C5: the claim says a tree consisting of one leaf `Value` node
evaluates to that leaf's value without invoking any `Operation`.  In the
source, `Node.execute()` returns nothing and never assigns
`this.result`; for a childless node the guard
`_childrenAreAllValuesOrNoChildren()` is `false` — its first statement
returns `false` on zero children, contradicting the method's own name —
so `execute()` takes the else branch, iterates zero children, and
finishes without producing any value: the leaf's 5 is never returned. -/
theorem singleLeaf_execute_yields_no_value :
    Node.execute singleLeafTree = Except.ok () ∧
    _childrenAreAllValuesOrNoChildren singleLeafTree = false :=
  ⟨rfl, rfl⟩

/-- C6: the claim says `NULL_AS_ZERO` replaces every `null` operand by
exactly one `0`, preserving list length.  In the source the
`NULL_AS_ZERO` branch pushes `0` but lacks a `continue`, so control
falls through to the unconditional `push(value)` and the `null` is
pushed as well: `[null]` validates to `[0, null]` (length 2, not 1),
and `[null, 7]` to `[0, null, 7]`. -/
theorem validateValues_nullAsZero_appends_null_too :
    validateValues Tree.NULL_AS_ZERO [JSVal.null] = Except.ok [JSVal.num 0, JSVal.null] ∧
    validateValues Tree.NULL_AS_ZERO [JSVal.null, JSVal.num 7] =
      Except.ok [JSVal.num 0, JSVal.null, JSVal.num 7] ∧
    validateValues Tree.NULL_AS_ZERO [JSVal.null] ≠ Except.ok [JSVal.num 0] := by
  refine ⟨rfl, rfl, ?_⟩
  intro h
  exact absurd (Except.ok.inj h) (by decide)

/-- C7: `validateValues` raises `NullValueError` exactly when the
null-handling mode is `THROW_ERROR_ON_NULL` and some operand is `null`;
in every other case — `DROP_NULL`, `NULL_AS_ZERO`, an unknown mode, or a
list without `null` — it returns normally, and `NullValueError` is its
only failure. -/
theorem validateValues_nullError_iff (nullHandlingMode : String) (values : List JSVal) :
    (validateValues nullHandlingMode values = Except.error JSError.nullValueError ↔
      (nullHandlingMode = Tree.THROW_ERROR_ON_NULL ∧ JSVal.null ∈ values)) ∧
    (validateValues nullHandlingMode values = Except.error JSError.nullValueError ∨
      ∃ out, validateValues nullHandlingMode values = Except.ok out) := by
  constructor
  · rw [validateValues_error_characterisation nullHandlingMode values JSError.nullValueError]
    simp
  · cases hx : validateValues nullHandlingMode values with
    | ok out => exact Or.inr ⟨out, rfl⟩
    | error e =>
      rcases (validateValues_error_characterisation nullHandlingMode values e).mp hx with
        ⟨he, _, _⟩
      subst he
      exact Or.inl rfl

/-- C8: the claim says `_isOperation(char)` returns true iff `char`
matches a registered non-function operation name.  In the source the
method's `for...of` loop iterates `this.operations`, a plain object with
no `Symbol.iterator`, so every call raises `TypeError` and never returns
a boolean at all (its guard moreover requires `operation.isFunction` to
be `true`, the opposite flag). -/
theorem isOperation_always_typeError (str : String) :
    _isOperation _initializeOperations str = Except.error JSError.typeError :=
  rfl

/-- C9: the claim says `swapPeriodsAndCommas` returns the input with `,`
and `.` swapped 1:1.  In the source the arrow function builds exactly
that string in the local variable `result` but has no `return`
statement, so it returns `undefined` (`none`) on every input; the
correctly swapped string `"1,000,000.00"` is computed and then
discarded. -/
theorem swapPeriodsAndCommas_returns_undefined :
    swapPeriodsAndCommas "1.000.000,00" = none ∧
    swapLoop "1.000.000,00" = "1,000,000.00" :=
  ⟨rfl, rfl⟩

/-- C10: a null-handling mode that is none of `DROP_NULL`,
`NULL_AS_ZERO` and `THROW_ERROR_ON_NULL` makes `validateValues` behave
exactly as under `NULL_AS_ZERO` (the final `else` logs a warning and
pushes `0`, then falls through to push the value, just like the
`NULL_AS_ZERO` branch) and never throw. -/
theorem validateValues_unknownMode_fallback (nullHandlingMode : String)
    (values : List JSVal)
    (h1 : nullHandlingMode ≠ Tree.DROP_NULL)
    (h2 : nullHandlingMode ≠ Tree.NULL_AS_ZERO)
    (h3 : nullHandlingMode ≠ Tree.THROW_ERROR_ON_NULL) :
    validateValues nullHandlingMode values = validateValues Tree.NULL_AS_ZERO values ∧
    ∃ out, validateValues nullHandlingMode values = Except.ok out := by
  have heq : validateValues nullHandlingMode values =
      validateValues Tree.NULL_AS_ZERO values := by
    induction values with
    | nil => rfl
    | cons v rest ih =>
      by_cases hv : v = JSVal.null
      · subst hv
        simp [validateValues, h1, h2, h3, ih]
      · simp [validateValues, hv, ih]
  refine ⟨heq, ?_⟩
  cases hx : validateValues nullHandlingMode values with
  | ok out => exact ⟨out, rfl⟩
  | error e =>
    rcases (validateValues_error_characterisation nullHandlingMode values e).mp hx with
      ⟨_, hmode, _⟩
    exact absurd hmode h3

/-- C10 witness: the theorem applied at the unknown mode `"bogus"` and
the operand list `[null, 7]`. -/
theorem validateValues_unknownMode_fallback_witness :
    validateValues "bogus" [JSVal.null, JSVal.num 7] =
      validateValues Tree.NULL_AS_ZERO [JSVal.null, JSVal.num 7] ∧
    ∃ out, validateValues "bogus" [JSVal.null, JSVal.num 7] = Except.ok out :=
  validateValues_unknownMode_fallback "bogus" [JSVal.null, JSVal.num 7]
    (by decide) (by decide) (by decide)
